import Mathlib

/-!
Verification of the composite-operation layer of an Azure DevOps MCP client
(`azure_devops_client.py`): optimistic-concurrency safe update, create-or-update
fallback, copy-then-delete move, wiki page tree assembly, suggestion scoring,
batch page creation, work-item transition discovery, and the fixed page-listing
batch size.

Python strings are modelled as Lean `String` (a list of characters); the string
operations the code uses (`in`, `startswith`, `lower`, `split`, `strip`) are
embedded as explicit recursive functions over the character list.  Remote calls
are modelled as oracles (`Except String α` values or functions producing them);
Python exceptions become the `Except.error` branch carrying `str(e)`.
-/

deriving instance DecidableEq for Except

namespace AzdoClient

/-- Python `s.startswith(pre)` over character lists: second argument is the
candidate leading segment. -/
def listStartsWith : List Char → List Char → Bool
  | _, [] => true
  | [], _ :: _ => false
  | a :: as, b :: bs => a == b && listStartsWith as bs

/-- Python `sub in s` over character lists (empty `sub` is contained in
everything, as in Python). -/
def listHasSub (sub : List Char) : List Char → Bool
  | [] => listStartsWith [] sub
  | c :: cs => listStartsWith (c :: cs) sub || listHasSub sub cs

/-- Python `s.startswith(pre)`. -/
def strStarts (s pre : String) : Bool := listStartsWith s.data pre.data

/-- Python `sub in s`. -/
def strHas (s sub : String) : Bool := listHasSub sub.data s.data

/-- Python `s.lower()`. -/
def strLower (s : String) : String := ⟨s.data.map Char.toLower⟩

/-- Python `s.split(c)` for a one-character separator, over character lists. -/
def splitChar (c : Char) : List Char → List (List Char)
  | [] => [[]]
  | a :: as =>
    match splitChar c as, a == c with
    | r, true => [] :: r
    | [], false => [[a]]
    | g :: gs, false => (a :: g) :: gs

/-- Python `s.split("/")`. -/
def strSplitSlash (s : String) : List String :=
  (splitChar '/' s.data).map (fun l => ⟨l⟩)

/-- Python `s.strip("/")`. -/
def strStripSlash (s : String) : String :=
  ⟨((s.data.dropWhile (· == '/')).reverse.dropWhile (· == '/')).reverse⟩

/-- A single-quote character, used when embedding the Python f-strings that
quote paths in error messages. -/
def sq : String := String.singleton (Char.ofNat 39)

/-- `'x'`-style quoting used by the Python error messages. -/
def quoted (s : String) : String := sq ++ s ++ sq

/-! ## 4.1 update_wiki_page_safe -/

/-- `"version" in str(e).lower()` — the conflict test of
`update_wiki_page_safe`. -/
def isVersionConflict (msg : String) : Bool := strHas (strLower msg) "version"

/-- `f"Failed to update wiki page after {max_retries} attempts due to version
conflicts"` — the message of the dedicated exhausted-retries exception. -/
def exhaustedMsg (n : Nat) : String :=
  "Failed to update wiki page after " ++ toString n ++
    " attempts due to version conflicts"

/-- Outcome of a run of `update_wiki_page_safe`: how many `get_page` calls and
how many `create_or_update_page` calls were issued, and the returned value or
raised exception. -/
structure SafeRun where
  fetches : Nat
  writes : Nat
  result : Except String String
deriving DecidableEq, Repr

/-- The `for attempt in range(max_retries)` loop of `update_wiki_page_safe`.
`fetchR i` models `get_page` on attempt `i` (returning the page object from
which the ETag is read); `writeR i pg` models `create_or_update_page` on
attempt `i` with the freshly fetched page.  A caught exception `e` is retried
iff `"version" in str(e).lower() and attempt < max_retries - 1`; otherwise it
is re-raised.  Falling off the end of the loop raises the exhausted-retries
exception. `remaining = max_retries - attempt` is the loop fuel. -/
def safeLoop (fetchR : Nat → Except String String)
    (writeR : Nat → String → Except String String)
    (max_retries : Nat) : (remaining attempt : Nat) → SafeRun
  | 0, _ => ⟨0, 0, .error (exhaustedMsg max_retries)⟩
  | r + 1, attempt =>
    match fetchR attempt with
    | .error e =>
      if isVersionConflict e && decide (attempt < max_retries - 1) then
        let rest := safeLoop fetchR writeR max_retries r (attempt + 1)
        ⟨rest.fetches + 1, rest.writes, rest.result⟩
      else ⟨1, 0, .error e⟩
    | .ok pg =>
      match writeR attempt pg with
      | .ok w => ⟨1, 1, .ok w⟩
      | .error e =>
        if isVersionConflict e && decide (attempt < max_retries - 1) then
          let rest := safeLoop fetchR writeR max_retries r (attempt + 1)
          ⟨rest.fetches + 1, rest.writes + 1, rest.result⟩
        else ⟨1, 1, .error e⟩

/-- `update_wiki_page_safe(project, wiki_identifier, path, content,
max_retries=3)`, with the remote calls abstracted into per-attempt oracles. -/
def update_wiki_page_safe (fetchR : Nat → Except String String)
    (writeR : Nat → String → Except String String)
    (max_retries : Nat := 3) : SafeRun :=
  safeLoop fetchR writeR max_retries max_retries 0

/-! ## 4.2 create_or_update_wiki_page_smart -/

/-- `"not found" in str(e).lower() or "404" in str(e)` — the fallback test of
`create_or_update_wiki_page_smart`. -/
def isNotFoundMsg (msg : String) : Bool :=
  strHas (strLower msg) "not found" || strHas msg "404"

/-- Outcome of a run of `create_or_update_wiki_page_smart`: how many times
`create_wiki_page` was called, and the returned value or raised exception. -/
structure SmartRun where
  createCalls : Nat
  result : Except String String
deriving DecidableEq, Repr

/-- `create_or_update_wiki_page_smart(project, wiki_identifier, path, content)`:
tries `update_wiki_page_safe` (with its default `max_retries=3`); on an
exception whose message is not-found flavored it falls back to a single
`create_wiki_page` call (modelled by `createR`); any other exception is
re-raised. -/
def create_or_update_wiki_page_smart (fetchR : Nat → Except String String)
    (writeR : Nat → String → Except String String)
    (createR : Except String String) : SmartRun :=
  match (update_wiki_page_safe fetchR writeR).result with
  | .ok v => ⟨0, .ok v⟩
  | .error e =>
    if isNotFoundMsg e then ⟨1, createR⟩
    else ⟨0, .error e⟩

/-! ## 4.3 move_wiki_page -/

/-- The source page object (`source_page.page`): its `content` attribute, with
`none` modelling Python `None`. -/
structure SrcPage where
  content : Option String
deriving DecidableEq, Repr

/-- The page object returned by `create_wiki_page` (`target_page.page`). -/
structure TargetPage where
  path : String
  url : String
deriving DecidableEq, Repr

/-- The dictionary returned by `move_wiki_page` on (partial) success. -/
structure MoveOk where
  status : String
  message : String
  from_path : String
  to_path : String
  target_path : String
  target_url : String
  warning : Option String
deriving DecidableEq, Repr

/-- Outcome of a run of `move_wiki_page`: the `(path, content)` arguments of
every `create_wiki_page` call, the `path` argument of every
`delete_wiki_page` call, and the returned dictionary or raised exception. -/
structure MoveRun where
  creates : List (String × String)
  deletes : List String
  result : Except String MoveOk
deriving DecidableEq, Repr

/-- `f"Source page '{from_path}' not found"`. -/
def srcNotFoundMsg (from_path : String) : String :=
  "Source page " ++ quoted from_path ++ " not found"

/-- `f"Failed to create page at target location '{to_path}': {create_error}"`. -/
def createFailMsg (to_path ce : String) : String :=
  "Failed to create page at target location " ++ quoted to_path ++ ": " ++ ce

/-- `f"Page moved to '{to_path}' but failed to delete original at
'{from_path}': {delete_error}"`. -/
def movePartialMsg (from_path to_path de : String) : String :=
  "Page moved to " ++ quoted to_path ++ " but failed to delete original at " ++
    quoted from_path ++ ": " ++ de

/-- `f"Original page at '{from_path}' still exists and may need manual
deletion"`. -/
def moveWarningMsg (from_path : String) : String :=
  "Original page at " ++ quoted from_path ++
    " still exists and may need manual deletion"

/-- `f"Page successfully moved from '{from_path}' to '{to_path}'"`. -/
def moveOkMsg (from_path to_path : String) : String :=
  "Page successfully moved from " ++ quoted from_path ++ " to " ++
    quoted to_path

/-- `f"Failed to move wiki page from '{from_path}' to '{to_path}': {e}"` — the
outer catch-all wrapper. -/
def moveFailMsg (from_path to_path e : String) : String :=
  "Failed to move wiki page from " ++ quoted from_path ++ " to " ++
    quoted to_path ++ ": " ++ e

/-- Body of the outer `try` of `move_wiki_page`: fetch the source page
(`fetchSrc`, where `.ok none` models a falsy `source_page`/`source_page.page`),
create at `to_path` with the source content (`createR`, keyed by content),
then delete `from_path` (`deleteR`); a delete failure yields the
`partial_success` dictionary instead of raising. -/
def moveCore (fetchSrc : Except String (Option SrcPage))
    (createR : String → Except String TargetPage)
    (deleteR : Except String Unit)
    (from_path to_path : String) : MoveRun :=
  match fetchSrc with
  | .error e => ⟨[], [], .error e⟩
  | .ok none => ⟨[], [], .error (srcNotFoundMsg from_path)⟩
  | .ok (some sp) =>
    let source_content := sp.content.getD ""
    match createR source_content with
    | .error ce =>
      ⟨[(to_path, source_content)], [], .error (createFailMsg to_path ce)⟩
    | .ok tp =>
      match deleteR with
      | .error de =>
        ⟨[(to_path, source_content)], [from_path],
          .ok ⟨"partial_success", movePartialMsg from_path to_path de,
            from_path, to_path, tp.path, tp.url,
            some (moveWarningMsg from_path)⟩⟩
      | .ok _ =>
        ⟨[(to_path, source_content)], [from_path],
          .ok ⟨"success", moveOkMsg from_path to_path,
            from_path, to_path, tp.path, tp.url, none⟩⟩

/-- `move_wiki_page(project, wiki_identifier, from_path, to_path)`: the body
above wrapped in the outer `except` that re-raises any exception as
`moveFailMsg`. -/
def move_wiki_page (fetchSrc : Except String (Option SrcPage))
    (createR : String → Except String TargetPage)
    (deleteR : Except String Unit)
    (from_path to_path : String) : MoveRun :=
  let r := moveCore fetchSrc createR deleteR from_path to_path
  match r.result with
  | .error e => ⟨r.creates, r.deletes, .error (moveFailMsg from_path to_path e)⟩
  | .ok v => ⟨r.creates, r.deletes, .ok v⟩

/-! ## list_wiki_pages and the derived views (4.4, 4.5, 4.6) -/

/-- One entry of the list returned by `list_wiki_pages`: the page `path` and
`url` (the `view_stats` field is carried along by the Python code but read by
none of the verified operations, so it is omitted from the embedding). -/
structure PageEntry where
  path : String
  url : String
deriving DecidableEq, Repr

/-- The fixed `top=100` of the `WikiPagesBatchRequest` built by
`list_wiki_pages`. -/
def wikiPagesBatchTop : Nat := 100

/-- `list_wiki_pages(project, wiki_identifier)`.  The remote
`get_pages_batch` is modelled from its documented contract (it is an external
SDK call, not repository code): given the wiki's full page list it returns at
most `top` pages, i.e. `List.take top`.  The client then normalizes each
returned page. -/
def list_wiki_pages (remotePages : List PageEntry) : List PageEntry :=
  (remotePages.take wikiPagesBatchTop).map (fun p => ⟨p.path, p.url⟩)

/-! ### 4.5 get_wiki_page_suggestions -/

/-- The score assigned by `get_wiki_page_suggestions` to a page `path` for a
given `partial_input`, via the `if/elif` chain over the lowercased strings. -/
def suggestionScore (path partial_input : String) : Nat :=
  let path_lower := strLower path
  let input_lower := strLower partial_input
  if strStarts path_lower input_lower then 100
  else if strHas path_lower input_lower then 50
  else if (strSplitSlash path_lower).any (fun part => strStarts part input_lower)
    then 25
  else 0

/-- A suggestion entry: the page (spread via `**page`) plus its
`match_score`. -/
structure Suggestion where
  page : PageEntry
  match_score : Nat
deriving DecidableEq, Repr

/-- Insert into a score-descending list, after every element of strictly
greater score and before the first of smaller-or-equal score. -/
def insertByScore (x : Suggestion) : List Suggestion → List Suggestion
  | [] => [x]
  | y :: ys =>
    if x.match_score < y.match_score then y :: insertByScore x ys
    else x :: y :: ys

/-- The stable descending sort performed by
`suggestions.sort(key=lambda x: x["match_score"], reverse=True)`: equal scores
keep their relative input order. -/
def sortByScoreDesc : List Suggestion → List Suggestion
  | [] => []
  | x :: xs => insertByScore x (sortByScoreDesc xs)

/-- The scored-and-filtered list `suggestions` built by the `for` loop of
`get_wiki_page_suggestions`: one entry per page with score `> 0`, in page
order. -/
def scoredPages (pages : List PageEntry) (partial_input : String) :
    List Suggestion :=
  (pages.map (fun p => Suggestion.mk p (suggestionScore p.path partial_input))
    ).filter (fun s => decide (0 < s.match_score))

/-- `get_wiki_page_suggestions(project, wiki_identifier, partial_input)` on an
already-fetched page list: score, keep positives, sort descending (stable),
return the first 10. -/
def get_wiki_page_suggestions (pages : List PageEntry)
    (partial_input : String) : List Suggestion :=
  (sortByScoreDesc (scoredPages pages partial_input)).take 10

/-- `get_wiki_page_suggestions` including its `list_wiki_pages` call. -/
def get_wiki_page_suggestions_remote (remotePages : List PageEntry)
    (partial_input : String) : List Suggestion :=
  get_wiki_page_suggestions (list_wiki_pages remotePages) partial_input

/-! ### 4.4 get_wiki_page_tree -/

/-- A node of the tree built by `get_wiki_page_tree`: the dictionary
`{"children": {...}, "info": ...}`.  Children are an association list in
insertion order, as Python dicts preserve insertion order. -/
inductive WNode where
  | mk (info : Option PageEntry) (children : List (String × WNode))

/-- The `info` field of a node. -/
def WNode.info : WNode → Option PageEntry
  | .mk i _ => i

/-- The `children` field of a node. -/
def WNode.children : WNode → List (String × WNode)
  | .mk _ c => c

/-- Dictionary lookup in a children map. -/
def lookupKey (k : String) : List (String × WNode) → Option WNode
  | [] => none
  | (k2, v) :: rest => if k2 == k then some v else lookupKey k rest

/-- Dictionary assignment `d[k] = n`: update in place when `k` is present,
append at the end when absent (Python dict insertion order). -/
def setKey (k : String) (n : WNode) : List (String × WNode) →
    List (String × WNode)
  | [] => [(k, n)]
  | (k2, v) :: rest =>
    if k2 == k then (k2, n) :: rest else (k2, v) :: setKey k n rest

/-- The inner `for i, part in enumerate(path_parts)` walk of
`get_wiki_page_tree` for one page: create missing nodes with
`{"children": {}, "info": None}` along the segments, attach `page` as `info`
at the final segment, descend into `children` otherwise. -/
def insertSegs (pg : PageEntry) : List String → List (String × WNode) →
    List (String × WNode)
  | [], t => t
  | [s], t =>
    let node := (lookupKey s t).getD (WNode.mk none [])
    setKey s (WNode.mk (some pg) node.children) t
  | s :: s2 :: rest, t =>
    let node := (lookupKey s t).getD (WNode.mk none [])
    setKey s (WNode.mk node.info (insertSegs pg (s2 :: rest) node.children)) t

/-- `get_wiki_page_tree(project, wiki_identifier)` on an already-fetched page
list: fold every page into the tree via
`page["path"].strip("/").split("/")`. -/
def get_wiki_page_tree (pages : List PageEntry) :
    List (String × WNode) :=
  pages.foldl
    (fun t pg => insertSegs pg (strSplitSlash (strStripSlash pg.path)) t) []

/-- `get_wiki_page_tree` including its `list_wiki_pages` call. -/
def get_wiki_page_tree_remote (remotePages : List PageEntry) :
    List (String × WNode) :=
  get_wiki_page_tree (list_wiki_pages remotePages)

/-- Lookup of the node reached by following a non-empty segment path through
the tree. -/
def lookupPath : List (String × WNode) → List String → Option WNode
  | _, [] => none
  | t, [s] => lookupKey s t
  | t, s :: s2 :: rest =>
    match lookupKey s t with
    | none => none
    | some n => lookupPath n.children (s2 :: rest)

/-! ### 4.6 create_wiki_pages_batch -/

/-- One entry of the list returned by `create_wiki_pages_batch`: the page
path, a `"success"`/`"error"` status, and the create result or the captured
error message. -/
structure BatchEntry where
  path : String
  status : String
  result : Option String
  error : Option String
deriving DecidableEq, Repr

/-- `create_wiki_pages_batch(project, wiki_identifier, pages_data)`:
`createR path content` models `create_wiki_page`; each `(path, content)` pair
is attempted inside its own `try`, and its outcome appended to `results`. -/
def create_wiki_pages_batch (createR : String → String → Except String String)
    (pages_data : List (String × String)) : List BatchEntry :=
  pages_data.map (fun pd =>
    match createR pd.1 pd.2 with
    | .ok r => ⟨pd.1, "success", some r, none⟩
    | .error e => ⟨pd.1, "error", none, some e⟩)

/-! ## 4.7 get_work_item_transitions -/

/-- One element of `work_item_type_obj.transitions`: the `from` attribute
(`none` models a missing attribute or `None`), the `to` attribute, and the
`actions` attribute. -/
structure TransMeta where
  fromState : Option String
  toState : Option String
  actions : List String
deriving DecidableEq, Repr

/-- One element of `work_item_type_obj.states`. -/
structure StateMeta where
  name : String
deriving DecidableEq, Repr

/-- The remote work item type object: `transitions`/`states` attributes, with
`none` modelling a missing or `None` attribute (an empty list is present but
falsy, which the code also routes to the fallback). -/
structure WIType where
  transitions : Option (List TransMeta)
  states : Option (List StateMeta)
deriving DecidableEq, Repr

/-- One transition dictionary returned by `get_work_item_transitions`. -/
structure TransOut where
  toState : Option String
  actions : List String
deriving DecidableEq, Repr

/-- Return value of `get_work_item_transitions`: either a transition list, or
the `{"error": ..., "transitions": []}` payload produced by the catch-all. -/
inductive TransResult where
  | ok (transitions : List TransOut)
  | errPayload (error : String)
deriving DecidableEq, Repr

/-- The `else` fallback of `get_work_item_transitions`: every declared state
other than `from_state` becomes a transition with empty actions; missing,
`None` or empty `states` leaves `transitions = []`. -/
def transitionsFallback (states : Option (List StateMeta))
    (from_state : String) : List TransOut :=
  match states with
  | some sts =>
    if sts.isEmpty then []
    else sts.filterMap (fun st =>
      if st.name == from_state then none else some ⟨some st.name, []⟩)
  | none => []

/-- `get_work_item_transitions(project, work_item_type, from_state)`:
`fetchType` models `get_work_item_type`; a truthy `transitions` attribute is
filtered on `from == from_state`, otherwise the declared-states fallback runs;
any exception becomes the `errPayload` dictionary instead of raising. -/
def get_work_item_transitions (fetchType : Except String WIType)
    (from_state : String) : TransResult :=
  match fetchType with
  | .error e => .errPayload e
  | .ok w =>
    match w.transitions with
    | some ts =>
      if ts.isEmpty then .ok (transitionsFallback w.states from_state)
      else .ok (ts.filterMap (fun t =>
        if t.fromState == some from_state then some ⟨t.toState, t.actions⟩
        else none))
    | none => .ok (transitionsFallback w.states from_state)

/-! ## Helper lemmas -/

/-- A run of `safeLoop` in which attempts `attempt, …, attempt+k-1` all fail
with version-conflict errors and attempt `attempt+k` fails with a
non-conflict error performs exactly `k+1` fetch+write cycles and re-raises
that error unchanged. -/
theorem safeLoop_conflicts_then_fail (fetchR : Nat → Except String String)
    (writeR : Nat → String → Except String String) (N : Nat) (e : String)
    (hnv : isVersionConflict e = false) :
    ∀ (k attempt r : Nat), attempt + r = N → attempt + k < N →
    (∀ i, attempt ≤ i → i < attempt + k →
      ∃ p c, fetchR i = .ok p ∧ writeR i p = .error c ∧
        isVersionConflict c = true) →
    (∃ p, fetchR (attempt + k) = .ok p ∧ writeR (attempt + k) p = .error e) →
    safeLoop fetchR writeR N r attempt = ⟨k + 1, k + 1, .error e⟩ := by
  intro k
  induction k with
  | zero =>
    intro attempt r hr hlt _ hfail
    obtain ⟨p, hp, hw⟩ := hfail
    obtain ⟨r', rfl⟩ : ∃ r', r = r' + 1 := ⟨r - 1, by omega⟩
    simp only [safeLoop, Nat.add_zero] at *
    simp [hp, hw, hnv]
  | succ k ih =>
    intro attempt r hr hlt hconf hfail
    obtain ⟨p, c, hp, hw, hc⟩ := hconf attempt (Nat.le_refl _) (by omega)
    obtain ⟨r', rfl⟩ : ∃ r', r = r' + 1 := ⟨r - 1, by omega⟩
    have hlt' : decide (attempt < N - 1) = true := by
      simp only [decide_eq_true_eq]; omega
    have hrest :
        safeLoop fetchR writeR N r' (attempt + 1) = ⟨k + 1, k + 1, .error e⟩ := by
      refine ih (attempt + 1) r' (by omega) (by omega) ?_ ?_
      · intro i hi1 hi2
        exact hconf i (by omega) (by omega)
      · have : attempt + 1 + k = attempt + (k + 1) := by omega
        rw [this]; exact hfail
    simp only [safeLoop]
    simp [hp, hw, hc, hlt', hrest]

/-! ## Claims -/

/-- C1 (refuted by the code): when every attempt of `update_wiki_page_safe`
fails with a version-conflict error, the function performs exactly
`max_retries` fetch+write cycles but then re-raises the *underlying conflict
error* (the `else: raise e` branch fires on the final attempt because
`attempt < max_retries - 1` is false there); the dedicated
`"Failed to update wiki page after N attempts due to version conflicts"`
exception on the line after the loop is unreachable, so no run ever raises it.
Evaluated at `max_retries = 1` and `max_retries = 3` with a conflicting
write on every attempt. -/
theorem update_safe_allconflicts_reraises_conflict :
    update_wiki_page_safe (fun _ => .ok "etag")
      (fun _ _ => .error "TF401028: version conflict") 1
      = ⟨1, 1, .error "TF401028: version conflict"⟩
    ∧ (update_wiki_page_safe (fun _ => .ok "etag")
        (fun _ _ => .error "TF401028: version conflict") 1).result
        ≠ .error (exhaustedMsg 1)
    ∧ update_wiki_page_safe (fun _ => .ok "etag")
        (fun _ _ => .error "TF401028: version conflict") 3
      = ⟨3, 3, .error "TF401028: version conflict"⟩
    ∧ (update_wiki_page_safe (fun _ => .ok "etag")
        (fun _ _ => .error "TF401028: version conflict") 3).result
        ≠ .error (exhaustedMsg 3) := by decide

/-- C2: if attempts `0, …, k-1` of `update_wiki_page_safe` fail with
version-conflict errors and the write of attempt `k < max_retries` fails with
an error whose message does not indicate a version mismatch, then exactly
`k+1` fetches and `k+1` writes happen (attempt `k+1` is never made) and the
original error propagates unchanged. -/
theorem update_safe_nonconflict_propagates_immediately
    (fetchR : Nat → Except String String)
    (writeR : Nat → String → Except String String) (N k : Nat) (e : String)
    (hk : k < N)
    (hconf : ∀ i, i < k →
      ∃ p c, fetchR i = .ok p ∧ writeR i p = .error c ∧
        isVersionConflict c = true)
    (hfail : ∃ p, fetchR k = .ok p ∧ writeR k p = .error e)
    (hnv : isVersionConflict e = false) :
    update_wiki_page_safe fetchR writeR N = ⟨k + 1, k + 1, .error e⟩ := by
  unfold update_wiki_page_safe
  refine safeLoop_conflicts_then_fail fetchR writeR N e hnv k 0 N
    (by omega) (by omega) ?_ ?_
  · intro i _ hi2
    exact hconf i (by omega)
  · simpa using hfail

/-- Witness for C2: a conflict on attempt 0 followed by a permission error on
attempt 1 stops after 2 cycles with that error, out of `max_retries = 3`. -/
theorem update_safe_nonconflict_propagates_immediately_witness :
    update_wiki_page_safe
      (fun _ => .ok "etag")
      (fun i _ => if i == 0 then .error "version conflict"
        else .error "permission denied") 3
      = ⟨2, 2, .error "permission denied"⟩ := by
  refine update_safe_nonconflict_propagates_immediately _ _ 3 1
    "permission denied" (by omega) ?_ ⟨"etag", rfl, by decide⟩ (by decide)
  intro i hi
  refine ⟨"etag", "version conflict", rfl, ?_, by decide⟩
  have : i = 0 := by omega
  subst this
  decide

/-- C3: when the source fetch and the create-at-target succeed but the delete
of `from_path` fails, `move_wiki_page` raises nothing and returns the
`partial_success` dictionary carrying both paths, the warning, and the target
page's path/url; the single create call `(to_path, source content)` stands
(no rollback: the only delete ever attempted is the one on `from_path`). -/
theorem move_delete_failure_partial_success
    (fetchSrc : Except String (Option SrcPage))
    (createR : String → Except String TargetPage)
    (deleteR : Except String Unit)
    (from_path to_path c : String) (tp : TargetPage) (de : String)
    (hf : fetchSrc = .ok (some ⟨some c⟩))
    (hc : createR c = .ok tp)
    (hd : deleteR = .error de) :
    move_wiki_page fetchSrc createR deleteR from_path to_path
      = ⟨[(to_path, c)], [from_path],
          .ok ⟨"partial_success", movePartialMsg from_path to_path de,
            from_path, to_path, tp.path, tp.url,
            some (moveWarningMsg from_path)⟩⟩ := by
  subst hf hd
  simp [move_wiki_page, moveCore, hc]

/-- Witness for C3 at a concrete fetch/create/delete behavior. -/
theorem move_delete_failure_partial_success_witness :
    move_wiki_page (.ok (some ⟨some "body"⟩))
      (fun cnt => .ok ⟨"T", "url/" ++ cnt⟩) (.error "locked") "F" "T"
      = ⟨[("T", "body")], ["F"],
          .ok ⟨"partial_success", movePartialMsg "F" "T" "locked", "F", "T",
            "T", "url/body", some (moveWarningMsg "F")⟩⟩ :=
  move_delete_failure_partial_success _ _ _ "F" "T" "body"
    ⟨"T", "url/body"⟩ "locked" rfl rfl rfl

/-- C4: when creating the page at `to_path` fails, `move_wiki_page` never
invokes delete (`deletes = []`, so the source page is untouched) and raises an
error whose message names `to_path` (the create-failure report, re-wrapped by
the outer handler). -/
theorem move_create_failure_no_delete
    (fetchSrc : Except String (Option SrcPage))
    (createR : String → Except String TargetPage)
    (deleteR : Except String Unit)
    (from_path to_path : String) (sp : SrcPage) (ce : String)
    (hf : fetchSrc = .ok (some sp))
    (hc : createR (sp.content.getD "") = .error ce) :
    move_wiki_page fetchSrc createR deleteR from_path to_path
      = ⟨[(to_path, sp.content.getD "")], [],
          .error (moveFailMsg from_path to_path (createFailMsg to_path ce))⟩
    ∧ ∃ pre post,
        moveFailMsg from_path to_path (createFailMsg to_path ce)
          = pre ++ (to_path ++ post) := by
  subst hf
  refine ⟨by simp [move_wiki_page, moveCore, hc], ?_⟩
  refine ⟨"Failed to move wiki page from " ++ quoted from_path ++ " to " ++ sq,
    sq ++ ": " ++ createFailMsg to_path ce, ?_⟩
  simp [moveFailMsg, quoted, String.append_assoc]

/-- Witness for C4 at a concrete fetch/create behavior. -/
theorem move_create_failure_no_delete_witness :
    move_wiki_page (.ok (some ⟨some "body"⟩))
      (fun _ => .error "denied") (.ok ()) "F" "T"
      = ⟨[("T", "body")], [],
          .error (moveFailMsg "F" "T" (createFailMsg "T" "denied"))⟩
    ∧ ∃ pre post,
        moveFailMsg "F" "T" (createFailMsg "T" "denied")
          = pre ++ ("T" ++ post) :=
  move_create_failure_no_delete (.ok (some ⟨some "body"⟩))
    (fun _ => .error "denied") (.ok ()) "F" "T" ⟨some "body"⟩ "denied" rfl rfl

/-- C5: whenever the underlying `update_wiki_page_safe` call of
`create_or_update_wiki_page_smart` fails, a not-found-flavored message
(`"not found"` case-insensitively, or `"404"`) routes to exactly one create
call whose result is returned, and any other message propagates unchanged
with no create call. -/
theorem smart_fallback_routing (fetchR : Nat → Except String String)
    (writeR : Nat → String → Except String String)
    (createR : Except String String) (e : String)
    (h : (update_wiki_page_safe fetchR writeR).result = .error e) :
    (isNotFoundMsg e = true →
      create_or_update_wiki_page_smart fetchR writeR createR = ⟨1, createR⟩)
    ∧ (isNotFoundMsg e = false →
      create_or_update_wiki_page_smart fetchR writeR createR
        = ⟨0, .error e⟩) := by
  constructor <;> intro hm <;>
    simp [create_or_update_wiki_page_smart, h, hm]

/-- Witness for C5: a not-found failure falls back to the create call, while a
permission failure propagates with no create call. -/
theorem smart_fallback_routing_witness :
    create_or_update_wiki_page_smart (fun _ => .error "Page not found")
      (fun _ _ => .ok "unused") (.ok "created")
      = ⟨1, .ok "created"⟩
    ∧ create_or_update_wiki_page_smart (fun _ => .error "permission denied")
      (fun _ _ => .ok "unused") (.ok "created")
      = ⟨0, .error "permission denied"⟩ :=
  ⟨(smart_fallback_routing (fun _ => .error "Page not found")
      (fun _ _ => .ok "unused") (.ok "created") "Page not found"
      (by decide)).1 (by decide),
   (smart_fallback_routing (fun _ => .error "permission denied")
      (fun _ _ => .ok "unused") (.ok "created") "permission denied"
      (by decide)).2 (by decide)⟩

/-- `insertByScore` only reorders: the result is a permutation of consing. -/
theorem insertByScore_perm (x : Suggestion) (l : List Suggestion) :
    List.Perm (insertByScore x l) (x :: l) := by
  induction l with
  | nil => simp [insertByScore]
  | cons y ys ih =>
    by_cases h : x.match_score < y.match_score
    · simp only [insertByScore, if_pos h]
      exact (ih.cons y).trans (List.Perm.swap x y ys)
    · simp only [insertByScore, if_neg h]
      exact List.Perm.refl _

/-- `sortByScoreDesc` permutes its input. -/
theorem sortByScoreDesc_perm (l : List Suggestion) :
    List.Perm (sortByScoreDesc l) l := by
  induction l with
  | nil => simp [sortByScoreDesc]
  | cons x xs ih =>
    exact (insertByScore_perm x (sortByScoreDesc xs)).trans (ih.cons x)

/-- `insertByScore` preserves descending sortedness. -/
theorem insertByScore_sorted (x : Suggestion) (l : List Suggestion)
    (h : List.Sorted (fun a b => b.match_score ≤ a.match_score) l) :
    List.Sorted (fun a b => b.match_score ≤ a.match_score)
      (insertByScore x l) := by
  induction l with
  | nil => simp [insertByScore]
  | cons y ys ih =>
    rw [List.sorted_cons] at h
    obtain ⟨hy, hys⟩ := h
    by_cases hlt : x.match_score < y.match_score
    · simp only [insertByScore, if_pos hlt]
      rw [List.sorted_cons]
      refine ⟨?_, ih hys⟩
      intro z hz
      rcases List.mem_cons.mp ((insertByScore_perm x ys).mem_iff.mp hz) with
        rfl | hz'
      · omega
      · exact hy z hz'
    · simp only [insertByScore, if_neg hlt]
      rw [List.sorted_cons]
      refine ⟨?_, ?_⟩
      · intro z hz
        rcases List.mem_cons.mp hz with rfl | hz'
        · omega
        · have := hy z hz'
          omega
      · rw [List.sorted_cons]
        exact ⟨hy, hys⟩

/-- `sortByScoreDesc` sorts descending by score. -/
theorem sortByScoreDesc_sorted (l : List Suggestion) :
    List.Sorted (fun a b => b.match_score ≤ a.match_score)
      (sortByScoreDesc l) := by
  induction l with
  | nil => simp [sortByScoreDesc]
  | cons x xs ih => exact insertByScore_sorted x _ ih

/-- Stability of one insertion: restricted to any single score `k`, inserting
keeps the inserted element first among equals only when its own score is `k`,
and otherwise leaves the `k`-scored subsequence untouched. -/
theorem insertByScore_filter_eq (x : Suggestion) (l : List Suggestion)
    (k : Nat) :
    (insertByScore x l).filter (fun s => s.match_score == k)
      = if x.match_score == k
        then x :: l.filter (fun s => s.match_score == k)
        else l.filter (fun s => s.match_score == k) := by
  induction l with
  | nil =>
    cases hxk : (x.match_score == k) <;>
      simp [insertByScore, List.filter, hxk]
  | cons y ys ih =>
    by_cases hlt : x.match_score < y.match_score
    · simp only [insertByScore, if_pos hlt]
      cases hxk : (x.match_score == k) with
      | true =>
        have hx : x.match_score = k := by rwa [beq_iff_eq] at hxk
        have hyk : (y.match_score == k) = false := by
          rw [beq_eq_false_iff_ne]
          omega
        simp [List.filter_cons, hyk, ih, hxk]
      | false =>
        simp [List.filter_cons, ih, hxk]
    · simp only [insertByScore, if_neg hlt]
      cases hxk : (x.match_score == k) <;> simp [List.filter_cons, hxk]

/-- Stability of the sort: for every score `k`, the `k`-scored elements appear
in the sorted output in exactly their input order. -/
theorem sortByScoreDesc_filter_eq (l : List Suggestion) (k : Nat) :
    (sortByScoreDesc l).filter (fun s => s.match_score == k)
      = l.filter (fun s => s.match_score == k) := by
  induction l with
  | nil => rfl
  | cons x xs ih =>
    show (insertByScore x (sortByScoreDesc xs)).filter _ = _
    rw [insertByScore_filter_eq, List.filter_cons]
    by_cases hxk : (x.match_score == k) = true
    · simp [hxk, ih]
    · simp at hxk
      simp [hxk, ih]

/-- C6: every suggestion returned by `get_wiki_page_suggestions` has a
positive score computed by the tiered `suggestionScore` and comes from the
input pages; the output is sorted descending by score; ties keep their
relative input order (stability, stated per score level on the sorting step);
at most 10 suggestions are returned; and on paths
`["Home", "Home/Setup", "Guides/Setup"]` with input `"Setup"`, `"Home"` is
excluded while both Setup pages are returned (both score 50 via the
substring tier, which precedes the segment tier). -/
theorem get_wiki_page_suggestions_spec :
    (∀ (pages : List PageEntry) (inp : String) (s : Suggestion),
        s ∈ get_wiki_page_suggestions pages inp →
        0 < s.match_score ∧ s.page ∈ pages ∧
          s.match_score = suggestionScore s.page.path inp)
    ∧ (∀ (pages : List PageEntry) (inp : String),
        List.Sorted (fun a b => b.match_score ≤ a.match_score)
          (get_wiki_page_suggestions pages inp))
    ∧ (∀ (pages : List PageEntry) (inp : String),
        (get_wiki_page_suggestions pages inp).length ≤ 10)
    ∧ (∀ (pages : List PageEntry) (inp : String) (k : Nat),
        (sortByScoreDesc (scoredPages pages inp)).filter
            (fun s => s.match_score == k)
          = (scoredPages pages inp).filter (fun s => s.match_score == k))
    ∧ get_wiki_page_suggestions
        [⟨"Home", "u1"⟩, ⟨"Home/Setup", "u2"⟩, ⟨"Guides/Setup", "u3"⟩] "Setup"
        = [⟨⟨"Home/Setup", "u2"⟩, 50⟩, ⟨⟨"Guides/Setup", "u3"⟩, 50⟩] := by
  refine ⟨?_, ?_, ?_, ?_, by decide⟩
  · intro pages inp s hs
    have hs1 : s ∈ sortByScoreDesc (scoredPages pages inp) :=
      List.mem_of_mem_take hs
    have hs2 : s ∈ scoredPages pages inp :=
      (sortByScoreDesc_perm _).mem_iff.mp hs1
    rw [scoredPages, List.mem_filter] at hs2
    obtain ⟨hmem, hpos⟩ := hs2
    rw [List.mem_map] at hmem
    obtain ⟨p, hp, rfl⟩ := hmem
    exact ⟨by simpa using hpos, hp, rfl⟩
  · intro pages inp
    exact List.Pairwise.sublist (List.take_sublist 10 _)
      (sortByScoreDesc_sorted _)
  · intro pages inp
    exact List.length_take_le 10 _
  · intro pages inp k
    exact sortByScoreDesc_filter_eq _ k

/-- Witness for C6: the membership property instantiated at the spec's
concrete example. -/
theorem get_wiki_page_suggestions_spec_witness :
    0 < (Suggestion.mk ⟨"Home/Setup", "u2"⟩ 50).match_score
    ∧ (Suggestion.mk ⟨"Home/Setup", "u2"⟩ 50).page ∈
        [PageEntry.mk "Home" "u1", PageEntry.mk "Home/Setup" "u2",
          PageEntry.mk "Guides/Setup" "u3"]
    ∧ (Suggestion.mk ⟨"Home/Setup", "u2"⟩ 50).match_score
        = suggestionScore (Suggestion.mk ⟨"Home/Setup", "u2"⟩ 50).page.path
            "Setup" :=
  get_wiki_page_suggestions_spec.1
    [⟨"Home", "u1"⟩, ⟨"Home/Setup", "u2"⟩, ⟨"Guides/Setup", "u3"⟩] "Setup"
    ⟨⟨"Home/Setup", "u2"⟩, 50⟩ (by decide)

/-- Assigning key `k` in a children map makes lookup at `k` return the
assigned node, whether `k` was present (in-place update) or absent
(append). -/
theorem lookupKey_setKey_self (k : String) (n : WNode)
    (t : List (String × WNode)) :
    lookupKey k (setKey k n t) = some n := by
  induction t with
  | nil => simp [setKey, lookupKey]
  | cons kv rest ih =>
    obtain ⟨k2, v⟩ := kv
    cases h : (k2 == k) <;> simp [setKey, lookupKey, h, ih]

/-- Assigning key `k2` leaves lookup at any other key unchanged. -/
theorem lookupKey_setKey_other (k k2 : String) (n : WNode)
    (t : List (String × WNode)) (hne : (k2 == k) = false) :
    lookupKey k (setKey k2 n t) = lookupKey k t := by
  induction t with
  | nil => simp [setKey, lookupKey, hne]
  | cons kv rest ih =>
    obtain ⟨k3, v⟩ := kv
    by_cases h3 : (k3 == k2) = true
    · have hk3 : (k3 == k) = false := by
        rw [beq_iff_eq] at h3
        rw [beq_eq_false_iff_ne] at hne ⊢
        rw [h3]; exact hne
      simp [setKey, lookupKey, h3, hk3]
    · rw [Bool.not_eq_true] at h3
      cases hk3 : (k3 == k) <;> simp [setKey, lookupKey, h3, hk3, ih]

/-- Inserting a page never removes a node: any segment path that resolved
before an `insertSegs` call still resolves afterwards. -/
theorem lookupPath_insertSegs_mono (pg : PageEntry) :
    ∀ (p segs : List String) (t : List (String × WNode)),
      (lookupPath t p).isSome →
      (lookupPath (insertSegs pg segs t) p).isSome := by
  intro p
  induction p with
  | nil =>
    intro segs t h
    simp [lookupPath] at h
  | cons s tail ih =>
    intro segs t h
    cases tail with
    | nil =>
      cases segs with
      | nil => simpa [insertSegs] using h
      | cons s1 rest =>
        by_cases h1 : (s1 == s) = true
        · have hs : s1 = s := by rwa [beq_iff_eq] at h1
          subst hs
          cases rest with
          | nil => simp [insertSegs, lookupPath, lookupKey_setKey_self]
          | cons s2 rest2 =>
            simp [insertSegs, lookupPath, lookupKey_setKey_self]
        · rw [Bool.not_eq_true] at h1
          cases rest with
          | nil =>
            simp only [insertSegs, lookupPath] at h ⊢
            rwa [lookupKey_setKey_other s s1 _ _ h1]
          | cons s2 rest2 =>
            simp only [insertSegs, lookupPath] at h ⊢
            rwa [lookupKey_setKey_other s s1 _ _ h1]
    | cons s2 tail2 =>
      simp only [lookupPath] at h ⊢
      cases hk : lookupKey s t with
      | none => rw [hk] at h; simp at h
      | some n =>
        rw [hk] at h
        cases segs with
        | nil => simpa [insertSegs, hk] using h
        | cons s1 rest =>
          by_cases h1 : (s1 == s) = true
          · have hs : s1 = s := by rwa [beq_iff_eq] at h1
            subst hs
            cases rest with
            | nil =>
              simp only [insertSegs, hk, Option.getD_some]
              rw [lookupKey_setKey_self]
              simpa [WNode.children] using h
            | cons s3 rest3 =>
              simp only [insertSegs, hk, Option.getD_some]
              rw [lookupKey_setKey_self]
              simp only [WNode.children]
              exact ih (s3 :: rest3) n.children h
          · rw [Bool.not_eq_true] at h1
            cases rest with
            | nil =>
              simp only [insertSegs]
              rw [lookupKey_setKey_other s s1 _ _ h1, hk]
              exact h
            | cons s3 rest3 =>
              simp only [insertSegs]
              rw [lookupKey_setKey_other s s1 _ _ h1, hk]
              exact h

/-- After inserting a page along a non-empty segment list, the node at that
segment path exists and carries the page as its `info`. -/
theorem lookupPath_insertSegs_self (pg : PageEntry) :
    ∀ (segs : List String) (t : List (String × WNode)), segs ≠ [] →
      ∃ n, lookupPath (insertSegs pg segs t) segs = some n ∧
        n.info = some pg := by
  intro segs
  induction segs with
  | nil => intro t h; exact absurd rfl h
  | cons s tail ih =>
    intro t _
    cases tail with
    | nil =>
      refine ⟨WNode.mk (some pg)
        ((lookupKey s t).getD (WNode.mk none [])).children, ?_, rfl⟩
      simp [insertSegs, lookupPath, lookupKey_setKey_self]
    | cons s2 tail2 =>
      obtain ⟨n, hn, hi⟩ :=
        ih (((lookupKey s t).getD (WNode.mk none [])).children)
          (by simp)
      refine ⟨n, ?_, hi⟩
      simp only [insertSegs, lookupPath]
      rw [lookupKey_setKey_self]
      simpa [WNode.children] using hn

/-- C7: `get_wiki_page_tree` builds a nested children-map structure in which
(a) a node that resolved before inserting another page still resolves after
(no node created in the call is removed, and pages sharing a prefix share the
intermediate nodes instead of duplicating keys), (b) the inserted page's info
is attached at the node of its final segment, and (c) on paths
`["a/b", "a/c", "d"]` the top-level keys are exactly `a, d`, node `a` has
children `b, c` (shared intermediate node, no leaf payload), and node `d`
carries the page's info with empty children. -/
theorem get_wiki_page_tree_spec :
    (∀ (pg : PageEntry) (segs p : List String) (t : List (String × WNode)),
        (lookupPath t p).isSome →
        (lookupPath (insertSegs pg segs t) p).isSome)
    ∧ (∀ (pg : PageEntry) (segs : List String) (t : List (String × WNode)),
        segs ≠ [] →
        ∃ n, lookupPath (insertSegs pg segs t) segs = some n ∧
          n.info = some pg)
    ∧ get_wiki_page_tree [⟨"a/b", "u1"⟩, ⟨"a/c", "u2"⟩, ⟨"d", "u3"⟩]
        = [("a", .mk none
              [("b", .mk (some ⟨"a/b", "u1"⟩) []),
               ("c", .mk (some ⟨"a/c", "u2"⟩) [])]),
           ("d", .mk (some ⟨"d", "u3"⟩) [])] :=
  ⟨fun pg segs p t => lookupPath_insertSegs_mono pg p segs t,
   lookupPath_insertSegs_self, by rfl⟩

/-- Witness for C7: monotonicity and final-segment attachment evaluated on a
concrete one-node tree. -/
theorem get_wiki_page_tree_spec_witness :
    (lookupPath
        (insertSegs ⟨"y", "uy"⟩ ["y"] [("x", WNode.mk none [])])
        ["x"]).isSome
    ∧ ∃ n, lookupPath
        (insertSegs ⟨"y", "uy"⟩ ["y"] [("x", WNode.mk none [])])
        ["y"] = some n ∧ n.info = some ⟨"y", "uy"⟩ :=
  ⟨get_wiki_page_tree_spec.1 ⟨"y", "uy"⟩ ["y"] ["x"]
      [("x", WNode.mk none [])] (by decide),
   get_wiki_page_tree_spec.2.1 ⟨"y", "uy"⟩ ["y"]
      [("x", WNode.mk none [])] (by decide)⟩

/-- C8: `create_wiki_pages_batch` returns one entry per input pair, in input
order; entry `i` is determined solely by the create call on input `i` (so one
page's failure never prevents attempting the rest, nothing is rolled back, and
no exception escapes — the function is total and returns the list); a
successful create is recorded as `"success"` with its result and a failed one
as `"error"` with the captured message.  Also evaluated on the spec's
three-page example with the second create failing. -/
theorem create_wiki_pages_batch_spec :
    (∀ (createR : String → String → Except String String)
        (pages_data : List (String × String)),
        (create_wiki_pages_batch createR pages_data).length
          = pages_data.length)
    ∧ (∀ (createR : String → String → Except String String)
        (pages_data : List (String × String)) (i : Nat) (p c : String),
        pages_data[i]? = some (p, c) →
        (create_wiki_pages_batch createR pages_data)[i]? =
          some (match createR p c with
            | .ok r => ⟨p, "success", some r, none⟩
            | .error e => ⟨p, "error", none, some e⟩))
    ∧ create_wiki_pages_batch
        (fun p c => if p == "p2" then .error "boom" else .ok (p ++ ":" ++ c))
        [("p1", "c1"), ("p2", "c2"), ("p3", "c3")]
        = [⟨"p1", "success", some "p1:c1", none⟩,
           ⟨"p2", "error", none, some "boom"⟩,
           ⟨"p3", "success", some "p3:c3", none⟩] := by
  refine ⟨?_, ?_, by decide⟩
  · intro createR pages_data
    simp [create_wiki_pages_batch]
  · intro createR pages_data i p c h
    simp [create_wiki_pages_batch, List.getElem?_map, h]

/-- Witness for C8: the pointwise characterization applied at index 1 of the
three-page example. -/
theorem create_wiki_pages_batch_spec_witness :
    (create_wiki_pages_batch
        (fun p c => if p == "p2" then .error "boom" else .ok (p ++ ":" ++ c))
        [("p1", "c1"), ("p2", "c2"), ("p3", "c3")])[1]?
      = some ⟨"p2", "error", none, some "boom"⟩ := by
  have := create_wiki_pages_batch_spec.2.1
    (fun p c => if p == "p2" then .error "boom" else .ok (p ++ ":" ++ c))
    [("p1", "c1"), ("p2", "c2"), ("p3", "c3")] 1 "p2" "c2" (by decide)
  simpa using this

/-- `transitionsFallback` on present states is exactly the comprehension over
states other than `from_state` (the empty-list guard changes nothing). -/
theorem transitionsFallback_some (sts : List StateMeta) (S : String) :
    transitionsFallback (some sts) S
      = sts.filterMap (fun st =>
          if st.name == S then none
          else some ⟨some st.name, []⟩) := by
  cases sts <;> simp [transitionsFallback]

/-- Length of the fallback comprehension: one transition per declared state
whose name differs from the query state. -/
theorem transitionsFallback_length (sts : List StateMeta) (S : String) :
    (sts.filterMap (fun st =>
        if st.name == S then none
        else some (TransOut.mk (some st.name) []))).length
      = (sts.filter (fun st => !(st.name == S))).length := by
  induction sts with
  | nil => rfl
  | cons st rest ih =>
    by_cases h : st.name = S <;>
      simp_all [List.filterMap_cons, List.filter_cons]

/-- C9: when the fetched work item type exposes no transition metadata
(attribute missing, `None`, or an empty list) but declares states,
`get_work_item_transitions` returns one transition per declared state other
than the query state `S`, each with empty actions and never pointing back to
`S`; and when the fetch raises, the structured `{error, transitions: []}`
payload is returned instead of an exception propagating. -/
theorem get_work_item_transitions_spec :
    (∀ (w : WIType) (sts : List StateMeta) (S : String),
        (w.transitions = none ∨ w.transitions = some []) →
        w.states = some sts →
        ∃ L, get_work_item_transitions (.ok w) S = .ok L
          ∧ L.length = (sts.filter (fun st => !(st.name == S))).length
          ∧ (∀ st ∈ sts, st.name ≠ S →
              (TransOut.mk (some st.name) []) ∈ L)
          ∧ (∀ t ∈ L, t.actions = [] ∧ t.toState ≠ some S))
    ∧ (∀ (e S : String),
        get_work_item_transitions (.error e) S = .errPayload e) := by
  constructor
  · intro w sts S htr hst
    refine ⟨sts.filterMap (fun st =>
      if st.name == S then none else some ⟨some st.name, []⟩), ?_, ?_, ?_, ?_⟩
    · rcases htr with h | h <;>
        simp [get_work_item_transitions, h, hst, transitionsFallback_some]
    · exact transitionsFallback_length sts S
    · intro st hmem hne
      rw [List.mem_filterMap]
      refine ⟨st, hmem, ?_⟩
      rw [if_neg (by simpa using hne)]
    · intro t ht
      rw [List.mem_filterMap] at ht
      obtain ⟨st, hmem, hf⟩ := ht
      by_cases h : (st.name == S) = true
      · rw [if_pos h] at hf
        exact absurd hf (by simp)
      · rw [if_neg h] at hf
        rw [Bool.not_eq_true, beq_eq_false_iff_ne] at h
        obtain rfl : t = ⟨some st.name, []⟩ := (Option.some.inj hf).symm
        exact ⟨rfl, by simpa using h⟩
  · intro e S
    rfl

/-- Witness for C9: states `[A, B, C]` with no transition metadata, queried
from `A`, yield transitions to `B` and `C` with empty actions; a failing
fetch yields a structured error payload. -/
theorem get_work_item_transitions_spec_witness :
    (∃ L, get_work_item_transitions
        (.ok ⟨none, some [⟨"A"⟩, ⟨"B"⟩, ⟨"C"⟩]⟩) "A" = .ok L
      ∧ L.length = ([⟨"A"⟩, ⟨"B"⟩, ⟨"C"⟩].filter
          (fun st : StateMeta => !(st.name == "A"))).length
      ∧ (∀ st ∈ ([⟨"A"⟩, ⟨"B"⟩, ⟨"C"⟩] : List StateMeta), st.name ≠ "A" →
          (TransOut.mk (some st.name) []) ∈ L)
      ∧ (∀ t ∈ L, t.actions = [] ∧ t.toState ≠ some "A"))
    ∧ get_work_item_transitions (.error "kaput") "A" = .errPayload "kaput" :=
  ⟨get_work_item_transitions_spec.1 ⟨none, some [⟨"A"⟩, ⟨"B"⟩, ⟨"C"⟩]⟩
      [⟨"A"⟩, ⟨"B"⟩, ⟨"C"⟩] "A" (Or.inl rfl) rfl,
   get_work_item_transitions_spec.2 "kaput" "A"⟩

/-- C10: `list_wiki_pages` always requests a fixed batch of `top = 100`
pages, so its result has at most 100 entries, it is insensitive to any page
beyond the first 100 of the wiki, and the derived views (suggestions, tree)
built on it operate only over those first 100 pages; evaluated concretely on
a 150-page wiki, exactly 100 entries survive. -/
theorem list_wiki_pages_top100 :
    wikiPagesBatchTop = 100
    ∧ (∀ (remote : List PageEntry),
        (list_wiki_pages remote).length ≤ 100)
    ∧ (∀ (remote : List PageEntry),
        list_wiki_pages remote = list_wiki_pages (remote.take 100))
    ∧ (∀ (remote : List PageEntry) (inp : String),
        get_wiki_page_suggestions_remote remote inp
          = get_wiki_page_suggestions_remote (remote.take 100) inp)
    ∧ (∀ (remote : List PageEntry),
        get_wiki_page_tree_remote remote
          = get_wiki_page_tree_remote (remote.take 100))
    ∧ (list_wiki_pages (List.replicate 150 ⟨"p", "u"⟩)).length = 100 := by
  have htake : ∀ (remote : List PageEntry),
      list_wiki_pages remote = list_wiki_pages (remote.take 100) := by
    intro remote
    simp [list_wiki_pages, wikiPagesBatchTop, List.take_take]
  refine ⟨rfl, ?_, htake, ?_, ?_, by decide⟩
  · intro remote
    rw [list_wiki_pages, List.length_map, List.length_take]
    exact Nat.min_le_left _ _
  · intro remote inp
    rw [get_wiki_page_suggestions_remote, htake remote]
    rfl
  · intro remote
    rw [get_wiki_page_tree_remote, htake remote]
    rfl

end AzdoClient

